import Mathlib

/-!
Shallow embedding of the job-matching logic of `src/app.py`
(SuyogJobFinder), centred on `map_group` and `filter_jobs`.

Modelling conventions:
* A pandas cell is `Option String`; `astype` mirrors Python
  `astype(str)`, which renders a missing value as `"nan"`.
* A dataframe row is an association list from column name to cell;
  a dataframe is a column list plus a row list (`Frame`).
* Python string operations (`lower`, `upper`, `strip`, `split`,
  substring `in`, the regex `[^A-Z ]` removal) are re-implemented on
  `List Char` so that every definition is kernel-executable.
  Whitespace is modelled as space, tab, carriage return and line feed.
* `filter_jobs` can raise `IndexError` in Python when a selected
  activity label has no whitespace-delimited token (`a.split()[0]`),
  so the embedding returns `Option Frame`, `none` meaning the raised
  exception.
-/

/-- ASCII lower-casing of a character, as Python `str.lower` acts on
the ASCII range used by the dataset. -/
def lowerChar (c : Char) : Char :=
  if 'A' ≤ c && c ≤ 'Z' then Char.ofNat (c.toNat + 32) else c

/-- ASCII upper-casing of a character. -/
def upperChar (c : Char) : Char :=
  if 'a' ≤ c && c ≤ 'z' then Char.ofNat (c.toNat - 32) else c

/-- Python `str.lower`. -/
def pyLower (s : String) : String := String.mk (s.data.map lowerChar)

/-- Python `str.upper`. -/
def pyUpper (s : String) : String := String.mk (s.data.map upperChar)

/-- Whitespace test used for `strip` and `split`. -/
def wsChar (c : Char) : Bool := c == ' ' || c == '\t' || c == '\r' || c == '\n'

/-- Python `str.strip` on a character list. -/
def stripChars (l : List Char) : List Char :=
  ((l.dropWhile wsChar).reverse.dropWhile wsChar).reverse

/-- Python `str.strip`. -/
def pyStrip (s : String) : String := String.mk (stripChars s.data)

/-- Does the needle occur at the head of the haystack? -/
def begMatch : List Char → List Char → Bool
  | [], _ => true
  | _ :: _, [] => false
  | a :: as, b :: bs => a == b && begMatch as bs

/-- Does the needle occur somewhere in the haystack?  First argument
of `contSub` is the haystack. -/
def chContains (needle : List Char) : List Char → Bool
  | [] => needle.isEmpty
  | c :: t => begMatch needle (c :: t) || chContains needle t

/-- Python substring test `needle in hay`, also pandas
`str.contains(needle, regex=False)`. -/
def contSub (hay needle : String) : Bool := chContains needle.data hay.data

/-- Whitespace tokenisation, Python `str.split()` (no argument):
splits on whitespace runs and drops empty pieces. -/
def tokensAux : List Char → List Char → List String
  | [], acc => if acc.isEmpty then [] else [String.mk acc.reverse]
  | c :: t, acc =>
    if wsChar c then
      if acc.isEmpty then tokensAux t [] else String.mk acc.reverse :: tokensAux t []
    else tokensAux t (c :: acc)

/-- Tokens of a string, Python `s.split()`. -/
def pyTokens (s : String) : List String := tokensAux s.data []

/-- Python `s.split()[0]`: `none` models the `IndexError` raised when
the string has no token. -/
def firstTok (s : String) : Option String := (pyTokens s).head?

/-- Membership of a string in a string list, Python `in` on a list
and pandas `isin`. -/
def memStr (x : String) : List String → Bool
  | [] => false
  | y :: t => if x = y then true else memStr x t

/-- Python `astype(str)` on one cell: a missing value renders as
`"nan"`. -/
def astype : Option String → String
  | none => "nan"
  | some s => s

/-- One dataframe row: association list from column name to cell. -/
abbrev Row := List (String × Option String)

/-- Cell of a row at a column; a column absent from the row reads as
a missing value. -/
def getCol : Row → String → Option String
  | [], _ => none
  | kv :: t, c => if kv.1 = c then kv.2 else getCol t c

/-- Does the row carry the column? -/
def hasCol : Row → String → Bool
  | [], _ => false
  | kv :: t, c => if kv.1 = c then true else hasCol t c

/-- Pandas column assignment `df[c] = v` restricted to one row:
overwrite the column when present, append it otherwise. -/
def setCol (r : Row) (c : String) (v : String) : Row :=
  if hasCol r c then
    r.map (fun kv => if kv.1 = c then (kv.1, some v) else kv)
  else r ++ [(c, some v)]

/-- An in-memory dataframe: the column list and the rows. -/
structure Frame where
  cols : List String
  rows : List Row
deriving DecidableEq

/-- The candidate profile handed to `filter_jobs`: the five keyword
arguments, `none` / `[]` playing Python `None`. -/
structure Profile where
  disability : Option String
  subcategory : Option String
  qualification : Option String
  department : Option String
  activities : List String
deriving DecidableEq

/-- Python truthiness of an optional string: `None` and `""` are
falsy. -/
def truthyS : Option String → Bool
  | none => false
  | some s => !(s == "")

/-- Underlying string of an optional string (only read when truthy). -/
def optS : Option String → String
  | none => ""
  | some s => s

/-- The qualification-to-groups table `map_group` of `src/app.py`. -/
def map_group (qualification : String) : List String :=
  let q := pyLower (pyStrip qualification)
  if memStr q ["graduate", "post graduate", "doctorate"] then
    ["Group A", "Group B", "Group C", "Group D"]
  else if q = "12th standard" then ["Group C", "Group D"]
  else if q = "10th standard" then ["Group D"]
  else ["Group D"]

/-- Disability mask of one row: OR over the columns whose lowered
name contains `"disabilities"` of a case-insensitive substring test
against the stripped, lowered candidate disability. -/
def disabilityMask (cols : List String) (d : String) (r : Row) : Bool :=
  cols.any (fun c =>
    contSub (pyLower c) "disabilities" &&
    contSub (pyLower (astype (getCol r c))) (pyLower (pyStrip d)))

/-- Subcategory mask of one row, same shape over `"subcategory"`
columns. -/
def subcatMask (cols : List String) (s : String) (r : Row) : Bool :=
  cols.any (fun c =>
    contSub (pyLower c) "subcategory" &&
    contSub (pyLower (astype (getCol r c))) (pyLower (pyStrip s)))

/-- Group mask of one row: `df["group"].astype(str).str.strip()`
membership in the allowed-group labels. -/
def groupMask (allowed : List String) (r : Row) : Bool :=
  memStr (pyStrip (astype (getCol r "group"))) allowed

/-- Department mask of one row: lowered department cell contains the
stripped, lowered candidate department. -/
def deptMask (dep : String) (r : Row) : Bool :=
  contSub (pyLower (astype (getCol r "department"))) (pyLower (pyStrip dep))

/-- Normalisation of the functional-requirements text: upper-case,
then drop every character that is not an upper-case letter or a
space (the regex replace `[^A-Z ]` → `""`). -/
def normFn (s : String) : String :=
  String.mk ((pyUpper s).data.filter (fun c => ('A' ≤ c && c ≤ 'Z') || c == ' '))

/-- The `functional_norm` column assignment applied to one row. -/
def augRow (r : Row) : Row :=
  setCol r "functional_norm" (normFn (astype (getCol r "functional_requirements")))

/-- Activities mask of one row of the augmented frame: does the
stored `functional_norm` text contain at least one selected code? -/
def actMask (codes : List String) (r : Row) : Bool :=
  codes.any (fun a => contSub (astype (getCol r "functional_norm")) a)

/-- The selected activity codes `[a.split()[0].upper() for a in
activities]`; `none` models the `IndexError` on a token-less label. -/
def selectedNorm : List String → Option (List String)
  | [] => some []
  | a :: t =>
    match (firstTok a).map pyUpper with
    | none => none
    | some c => (selectedNorm t).map (fun cs => c :: cs)

/-- One guarded filter step of `filter_jobs`: restrict to the mask
only when some current row satisfies it (`if mask.any()`). -/
def applyGuard (rows : List Row) (p : Row → Bool) : List Row :=
  if rows.any p then rows.filter p else rows

/-- A criterion stage: run the guarded filter when the criterion is
enabled, keep the rows otherwise. -/
def stage (e : Bool) (rows : List Row) (p : Row → Bool) : List Row :=
  if e then applyGuard rows p else rows

/-- Enabledness of the disability criterion. -/
def en1 (p : Profile) : Bool := truthyS p.disability

/-- Enabledness of the subcategory criterion. -/
def en2 (p : Profile) : Bool := truthyS p.subcategory

/-- The `allowed_groups` local of `filter_jobs`:
`map_group(qualification) if qualification else []`. -/
def allowedOf (p : Profile) : List String :=
  if truthyS p.qualification then map_group (optS p.qualification) else []

/-- Enabledness of the qualification-group criterion:
`if allowed_groups and "group" in df_filtered.columns`. -/
def en3 (cols : List String) (p : Profile) : Bool :=
  !(allowedOf p).isEmpty && memStr "group" cols

/-- Enabledness of the department criterion:
`if department and "department" in df_filtered.columns`. -/
def en4 (cols : List String) (p : Profile) : Bool :=
  truthyS p.department && memStr "department" cols

/-- Enabledness of the activities criterion:
`if activities and "functional_requirements" in df_filtered.columns`. -/
def en5 (cols : List String) (p : Profile) : Bool :=
  !p.activities.isEmpty && memStr "functional_requirements" cols

/-- Column list of the result frame when the activities stage ran:
the column assignment appends `functional_norm` unless present. -/
def colsWithNorm (cols : List String) : List String :=
  if memStr "functional_norm" cols then cols else cols ++ ["functional_norm"]

/-- The matcher `filter_jobs` of `src/app.py`: the five criterion
stages in source order, each skipped when disabled or when no current
row passes it; the activities stage first materialises the
`functional_norm` column on every current row, then computes the
selected codes (where Python may raise, hence `none`), then applies
its guarded filter.  `reset_index(drop=True)` is a no-op here. -/
def filter_jobs (f : Frame) (p : Profile) : Option Frame :=
  let r1 := stage (en1 p) f.rows (disabilityMask f.cols (optS p.disability))
  let r2 := stage (en2 p) r1 (subcatMask f.cols (optS p.subcategory))
  let r3 := stage (en3 f.cols p) r2 (groupMask (allowedOf p))
  let r4 := stage (en4 f.cols p) r3 (deptMask (optS p.department))
  if en5 f.cols p then
    match selectedNorm p.activities with
    | none => none
    | some codes => some ⟨colsWithNorm f.cols, applyGuard (r4.map augRow) (actMask codes)⟩
  else
    some ⟨f.cols, r4⟩

/-- The fixed activity options `activities_list` of `src/app.py`;
every activity the application ever passes to `filter_jobs` is drawn
from this list. -/
def activities_list : List String :=
  ["S Sitting", "ST Standing", "W Walking", "BN Bending", "L Lifting",
   "PP Pulling & Pushing", "KC Kneeling & Crouching",
   "MF Manipulation with Fingers", "RW Reading & Writing",
   "SE Seeing", "H Hearing", "C Communication"]

/-- Total version of the selected activity codes, dropping token-less
labels instead of raising; agrees with `selectedNorm` whenever every
label has a token. -/
def codesOf (acts : List String) : List String :=
  acts.filterMap (fun a => (firstTok a).map pyUpper)

/-- Activities pass-predicate expressed on the original row: the
normalised functional-requirements text contains some selected code. -/
def actPass (codes : List String) (r : Row) : Bool :=
  codes.any (fun a => contSub (normFn (astype (getCol r "functional_requirements"))) a)

/-- Conjunction of the five per-criterion pass tests, each weakened
to `true` when its criterion is disabled; the association mirrors the
order the stages fold in. -/
def passAll (cols : List String) (p : Profile) (r : Row) : Bool :=
  ((((!en1 p || disabilityMask cols (optS p.disability) r) &&
     (!en2 p || subcatMask cols (optS p.subcategory) r)) &&
    (!en3 cols p || groupMask (allowedOf p) r)) &&
   (!en4 cols p || deptMask (optS p.department) r)) &&
  (!en5 cols p || actPass (codesOf p.activities) r)

/-- Drop every `functional_norm` entry of a row: comparison of rows
up to the helper column the activities stage materialises. -/
def stripNorm : Row → Row
  | [] => []
  | kv :: t => if kv.1 = "functional_norm" then stripNorm t else kv :: stripNorm t

/-- A profile with only the disability field set. -/
def disOnly (d : String) : Profile := ⟨some d, none, none, none, []⟩

/-- A profile with only the qualification field set. -/
def qualOnly (q : String) : Profile := ⟨none, none, some q, none, []⟩

/-- A profile with only the department field set. -/
def depOnly (dep : String) : Profile := ⟨none, none, none, some dep, []⟩

/-- A profile with only the activity selection set. -/
def actsOnly (acts : List String) : Profile := ⟨none, none, none, none, acts⟩

/-- The all-unset profile (every criterion disabled). -/
def emptyProfile : Profile := ⟨none, none, none, none, []⟩

/-- Profile `q` extends profile `p` by enabling exactly one
additional criterion, the others left untouched. -/
inductive OneMore : Profile → Profile → Prop where
  | dis : ∀ (d : String) (s q dep : Option String) (acts : List String),
      OneMore ⟨none, s, q, dep, acts⟩ ⟨some d, s, q, dep, acts⟩
  | sub : ∀ (s : String) (d q dep : Option String) (acts : List String),
      OneMore ⟨d, none, q, dep, acts⟩ ⟨d, some s, q, dep, acts⟩
  | qual : ∀ (q : String) (d s dep : Option String) (acts : List String),
      OneMore ⟨d, s, none, dep, acts⟩ ⟨d, s, some q, dep, acts⟩
  | dep : ∀ (dep : String) (d s q : Option String) (acts : List String),
      OneMore ⟨d, s, q, none, acts⟩ ⟨d, s, q, some dep, acts⟩
  | act : ∀ (acts : List String) (d s q dep : Option String),
      OneMore ⟨d, s, q, dep, []⟩ ⟨d, s, q, dep, acts⟩

/-- Group normalisation as the spec words it: upper-case the raw
group text and return the first of A, B, C, D occurring as a
substring, or the empty string. -/
def specNormalizeGroupLetter (raw : String) : String :=
  let u := pyUpper raw
  if contSub u "A" then "A"
  else if contSub u "B" then "B"
  else if contSub u "C" then "C"
  else if contSub u "D" then "D"
  else ""

/-- The spec's `allowed_groups` as a set of group letters. -/
def specAllowedLetters (q : String) : List String :=
  if memStr q ["Graduate", "Post Graduate", "Doctorate"] then ["A", "B", "C", "D"]
  else if q = "12th Standard" then ["C", "D"]
  else if q = "10th Standard" then ["D"]
  else ["D"]

/-- Qualification criterion as claim C3 words it: the normalised
group letter of the record is a member of the allowed letters. -/
def specGroupPass (q : String) (r : Row) : Bool :=
  memStr (specNormalizeGroupLetter (astype (getCol r "group"))) (specAllowedLetters q)

/-- Qualification criterion as the code implements it: the stripped
raw group label is exactly one of the `map_group` labels. -/
def groupPassCode (q : String) (r : Row) : Bool :=
  memStr (pyStrip (astype (getCol r "group"))) (map_group q)

/-- Disability criterion as claim C4 words it: some column whose
name contains `"disabilit"` holds the candidate's disability name as
a case-insensitive substring. -/
def specDisabilityPass (cols : List String) (d : String) (r : Row) : Bool :=
  cols.any (fun c =>
    contSub c "disabilit" &&
    contSub (pyLower (astype (getCol r c))) (pyLower d))

/-- Amended disability criterion: evidence columns are those whose
lower-cased name contains `"disabilities"`, and the candidate name is
stripped before the case-insensitive substring test. -/
def specDisabilityPassA (cols : List String) (d : String) (r : Row) : Bool :=
  (cols.filter (fun c => contSub (pyLower c) "disabilities")).any
    (fun c => contSub (pyLower (astype (getCol r c))) (pyLower (pyStrip d)))

/-- Department criterion as claim C7 words it: the department field
contains the candidate's department string, case-insensitively. -/
def specDeptPass (dep : String) (r : Row) : Bool :=
  contSub (pyLower (astype (getCol r "department"))) (pyLower dep)

/-- Amended department criterion: the candidate string is stripped of
surrounding whitespace before the case-insensitive substring test. -/
def specDeptPassA (dep : String) (r : Row) : Bool :=
  contSub (pyLower (astype (getCol r "department"))) (pyLower (pyStrip dep))

/-- The code of an activity label: its first whitespace-delimited
token, upper-cased. -/
def activityCode (a : String) : Option String := (firstTok a).map pyUpper

/-- Activities criterion as claim C6 words it: the normalised
functional-requirements text contains at least one selected activity
code as a substring (OR across the selection). -/
def specActPass (acts : List String) (r : Row) : Bool :=
  acts.any (fun a =>
    match activityCode a with
    | some code => contSub (normFn (astype (getCol r "functional_requirements"))) code
    | none => false)

example : pyLower "AbC d" = "abc d" := by decide
example : pyStrip "  x y  " = "x y" := by decide
example : contSub "higher education department" "education" = true := by decide
example : contSub "education office" " education" = false := by decide
example : pyTokens "RW Reading & Writing" = ["RW", "Reading", "&", "Writing"] := by decide
example : firstTok "  " = none := by decide
example : normFn "S Sitting, H2!" = "S SITTING H" := by decide
example : map_group "Graduate" = ["Group A", "Group B", "Group C", "Group D"] := by decide
example : map_group "12th Standard" = ["Group C", "Group D"] := by decide
example : map_group "Certificate" = ["Group D"] := by decide
example :
    filter_jobs ⟨["department"], [[("department", some "Education Office")]]⟩
      ⟨none, none, none, some "education", []⟩ =
      some ⟨["department"], [[("department", some "Education Office")]]⟩ := by decide

theorem filter_filterB {α : Type} (p q : α → Bool) :
    ∀ l : List α, (l.filter p).filter q = l.filter (fun a => p a && q a) := by
  intro l
  induction l with
  | nil => rfl
  | cons a t ih =>
    by_cases hp : p a = true
    · by_cases hq : q a = true
      · simp [List.filter_cons, hp, hq, ih]
      · simp [List.filter_cons, hp, Bool.eq_false_iff.mpr hq, ih]
    · simp [List.filter_cons, Bool.eq_false_iff.mpr hp, ih]

theorem filter_ext {α : Type} (p q : α → Bool) (h : ∀ a, p a = q a) (l : List α) :
    l.filter p = l.filter q := by
  have hpq : p = q := funext h
  rw [hpq]

theorem filter_map_commute {α β : Type} (g : α → β) (p : β → Bool) :
    ∀ l : List α, (l.map g).filter p = (l.filter (fun a => p (g a))).map g := by
  intro l
  induction l with
  | nil => rfl
  | cons a t ih =>
    by_cases hp : p (g a) = true
    · simp [List.filter_cons, hp, ih]
    · simp [List.filter_cons, Bool.eq_false_iff.mpr hp, ih]

theorem applyGuard_run (rows : List Row) (p : Row → Bool)
    (w : Row) (hw : w ∈ rows) (hp : p w = true) :
    applyGuard rows p = rows.filter p := by
  unfold applyGuard
  rw [if_pos (List.any_eq_true.mpr ⟨w, hw, hp⟩)]

theorem stage_run (e : Bool) (rows : List Row) (p : Row → Bool)
    (h : e = true → ∃ w, w ∈ rows ∧ p w = true) :
    stage e rows p = rows.filter (fun r => !e || p r) := by
  cases e with
  | false => simp [stage]
  | true =>
    obtain ⟨w, hw, hp⟩ := h rfl
    show applyGuard rows p = _
    rw [applyGuard_run rows p w hw hp]
    exact filter_ext _ _ (fun a => by simp) rows

theorem getCol_append_of_not_has (r : Row) (c : String) (l : Row)
    (h : hasCol r c = false) : getCol (r ++ l) c = getCol l c := by
  induction r with
  | nil => rfl
  | cons kv t ih =>
    by_cases hkc : kv.1 = c
    · simp [hasCol, hkc] at h
    · simp only [List.cons_append, getCol, if_neg hkc]
      exact ih (by simpa [hasCol, hkc] using h)

theorem getCol_map_set (r : Row) (c : String) (v : String) :
    getCol (r.map (fun kv => if kv.1 = c then (kv.1, some v) else kv)) c =
      (if hasCol r c then some v else none) := by
  induction r with
  | nil => rfl
  | cons kv t ih =>
    by_cases hkc : kv.1 = c
    · simp [getCol, hasCol, hkc]
    · simp [getCol, hasCol, hkc, ih]

theorem getCol_setCol (r : Row) (c : String) (v : String) :
    getCol (setCol r c v) c = some v := by
  unfold setCol
  by_cases h : hasCol r c = true
  · rw [if_pos h, getCol_map_set, if_pos h]
  · rw [if_neg h, getCol_append_of_not_has r c _ (Bool.eq_false_iff.mpr h)]
    simp [getCol]

theorem actMask_augRow (codes : List String) (r : Row) :
    actMask codes (augRow r) = actPass codes r := by
  unfold actMask actPass augRow
  rw [getCol_setCol]
  rfl

theorem selectedNorm_eq_codesOf (acts : List String)
    (hTok : ∀ a ∈ acts, (firstTok a).isSome = true) :
    selectedNorm acts = some (codesOf acts) := by
  induction acts with
  | nil => rfl
  | cons a t ih =>
    obtain ⟨c, hc⟩ := Option.isSome_iff_exists.mp (hTok a (by simp))
    have ht := ih (fun b hb => hTok b (by simp [hb]))
    simp [selectedNorm, codesOf, hc, List.filterMap_cons]
    simpa [codesOf] using ht

theorem filter_jobs_run (f : Frame) (p : Profile)
    (hTok : ∀ a ∈ p.activities, (firstTok a).isSome = true)
    (w : Row) (hw : w ∈ f.rows) (hpass : passAll f.cols p w = true) :
    filter_jobs f p =
      some ⟨(if en5 f.cols p then colsWithNorm f.cols else f.cols),
        ((f.rows.filter (passAll f.cols p)).map
          (fun r => if en5 f.cols p then augRow r else r))⟩ := by
  unfold passAll at hpass
  rw [Bool.and_eq_true, Bool.and_eq_true, Bool.and_eq_true, Bool.and_eq_true] at hpass
  obtain ⟨⟨⟨⟨h1, h2⟩, h3⟩, h4⟩, h5⟩ := hpass
  have e1 : stage (en1 p) f.rows (disabilityMask f.cols (optS p.disability)) =
      f.rows.filter (fun r => !en1 p || disabilityMask f.cols (optS p.disability) r) :=
    stage_run _ _ _ (fun he => ⟨w, hw, by rw [he] at h1; simpa using h1⟩)
  have hw1 : w ∈ f.rows.filter
      (fun r => !en1 p || disabilityMask f.cols (optS p.disability) r) :=
    List.mem_filter.mpr ⟨hw, h1⟩
  have e2 : stage (en2 p)
      (f.rows.filter (fun r => !en1 p || disabilityMask f.cols (optS p.disability) r))
      (subcatMask f.cols (optS p.subcategory)) =
      f.rows.filter (fun r =>
        (!en1 p || disabilityMask f.cols (optS p.disability) r) &&
        (!en2 p || subcatMask f.cols (optS p.subcategory) r)) := by
    rw [stage_run _ _ _ (fun he => ⟨w, hw1, by rw [he] at h2; simpa using h2⟩)]
    rw [filter_filterB]
  have hw2 : w ∈ f.rows.filter (fun r =>
      (!en1 p || disabilityMask f.cols (optS p.disability) r) &&
      (!en2 p || subcatMask f.cols (optS p.subcategory) r)) :=
    List.mem_filter.mpr ⟨hw, by rw [h1, h2]; rfl⟩
  have e3 : stage (en3 f.cols p)
      (f.rows.filter (fun r =>
        (!en1 p || disabilityMask f.cols (optS p.disability) r) &&
        (!en2 p || subcatMask f.cols (optS p.subcategory) r)))
      (groupMask (allowedOf p)) =
      f.rows.filter (fun r =>
        ((!en1 p || disabilityMask f.cols (optS p.disability) r) &&
         (!en2 p || subcatMask f.cols (optS p.subcategory) r)) &&
        (!en3 f.cols p || groupMask (allowedOf p) r)) := by
    rw [stage_run _ _ _ (fun he => ⟨w, hw2, by rw [he] at h3; simpa using h3⟩)]
    rw [filter_filterB]
  have hw3 : w ∈ f.rows.filter (fun r =>
      ((!en1 p || disabilityMask f.cols (optS p.disability) r) &&
       (!en2 p || subcatMask f.cols (optS p.subcategory) r)) &&
      (!en3 f.cols p || groupMask (allowedOf p) r)) :=
    List.mem_filter.mpr ⟨hw, by rw [h1, h2, h3]; rfl⟩
  have e4 : stage (en4 f.cols p)
      (f.rows.filter (fun r =>
        ((!en1 p || disabilityMask f.cols (optS p.disability) r) &&
         (!en2 p || subcatMask f.cols (optS p.subcategory) r)) &&
        (!en3 f.cols p || groupMask (allowedOf p) r)))
      (deptMask (optS p.department)) =
      f.rows.filter (fun r =>
        (((!en1 p || disabilityMask f.cols (optS p.disability) r) &&
          (!en2 p || subcatMask f.cols (optS p.subcategory) r)) &&
         (!en3 f.cols p || groupMask (allowedOf p) r)) &&
        (!en4 f.cols p || deptMask (optS p.department) r)) := by
    rw [stage_run _ _ _ (fun he => ⟨w, hw3, by rw [he] at h4; simpa using h4⟩)]
    rw [filter_filterB]
  have hw4 : w ∈ f.rows.filter (fun r =>
      (((!en1 p || disabilityMask f.cols (optS p.disability) r) &&
        (!en2 p || subcatMask f.cols (optS p.subcategory) r)) &&
       (!en3 f.cols p || groupMask (allowedOf p) r)) &&
      (!en4 f.cols p || deptMask (optS p.department) r)) :=
    List.mem_filter.mpr ⟨hw, by rw [h1, h2, h3, h4]; rfl⟩
  simp only [filter_jobs]
  rw [e1, e2, e3, e4]
  by_cases hen5 : en5 f.cols p = true
  · rw [if_pos hen5, selectedNorm_eq_codesOf p.activities hTok]
    have hmem : augRow w ∈
        (f.rows.filter (fun r =>
          (((!en1 p || disabilityMask f.cols (optS p.disability) r) &&
            (!en2 p || subcatMask f.cols (optS p.subcategory) r)) &&
           (!en3 f.cols p || groupMask (allowedOf p) r)) &&
          (!en4 f.cols p || deptMask (optS p.department) r))).map augRow :=
      List.mem_map_of_mem augRow hw4
    have hact : actMask (codesOf p.activities) (augRow w) = true := by
      rw [actMask_augRow]
      rw [hen5] at h5
      simpa using h5
    show some _ = _
    rw [applyGuard_run _ _ _ hmem hact, filter_map_commute]
    simp only [hen5, if_true]
    rw [filter_filterB]
    exact congrArg some (congrArg (Frame.mk (colsWithNorm f.cols))
      (congrArg (List.map augRow)
        (filter_ext _ (passAll f.cols p)
          (fun a => by simp [actMask_augRow, passAll, hen5]) f.rows)))
  · have hf : en5 f.cols p = false := Bool.eq_false_iff.mpr hen5
    rw [if_neg hen5]
    simp only [hf, Bool.false_eq_true, if_false, List.map_id_fun, id_eq]
    have hmid : (f.rows.filter (passAll f.cols p)).map (fun r : Row => r) =
        f.rows.filter (passAll f.cols p) := by
      simp
    rw [hmid]
    exact congrArg some (congrArg (Frame.mk f.cols)
      (filter_ext _ (passAll f.cols p) (fun a => by simp [passAll, hf]) f.rows))

theorem applyGuard_sub (rows : List Row) (p : Row → Bool) :
    ∀ x ∈ applyGuard rows p, x ∈ rows := by
  intro x hx
  unfold applyGuard at hx
  by_cases ha : rows.any p = true
  · rw [if_pos ha] at hx
    exact (List.mem_filter.mp hx).1
  · rw [if_neg ha] at hx
    exact hx

theorem stage_sub (e : Bool) (rows : List Row) (p : Row → Bool) :
    ∀ x ∈ stage e rows p, x ∈ rows := by
  cases e with
  | false => intro x hx; exact hx
  | true => exact applyGuard_sub rows p

theorem applyGuard_nil_iff (rows : List Row) (p : Row → Bool) :
    applyGuard rows p = [] ↔ rows = [] := by
  constructor
  · intro h
    unfold applyGuard at h
    by_cases ha : rows.any p = true
    · rw [if_pos ha] at h
      obtain ⟨x, hx, hpx⟩ := List.any_eq_true.mp ha
      have hmem : x ∈ rows.filter p := List.mem_filter.mpr ⟨hx, hpx⟩
      rw [h] at hmem
      cases hmem
    · rw [if_neg ha] at h
      exact h
  · intro h
    subst h
    rfl

theorem stage_nil_iff (e : Bool) (rows : List Row) (p : Row → Bool) :
    stage e rows p = [] ↔ rows = [] := by
  cases e with
  | false => exact Iff.rfl
  | true => exact applyGuard_nil_iff rows p

theorem filter_jobs_total (f : Frame) (p : Profile)
    (hTok : ∀ a ∈ p.activities, (firstTok a).isSome = true) :
    ∃ g, filter_jobs f p = some g ∧ (g.rows = [] ↔ f.rows = []) := by
  simp only [filter_jobs]
  by_cases hen5 : en5 f.cols p = true
  · rw [if_pos hen5, selectedNorm_eq_codesOf p.activities hTok]
    refine ⟨_, rfl, ?_⟩
    show applyGuard _ _ = [] ↔ _
    rw [applyGuard_nil_iff, List.map_eq_nil_iff, stage_nil_iff, stage_nil_iff,
      stage_nil_iff, stage_nil_iff]
  · rw [if_neg hen5]
    refine ⟨_, rfl, ?_⟩
    show stage _ _ _ = [] ↔ _
    rw [stage_nil_iff, stage_nil_iff, stage_nil_iff, stage_nil_iff]

theorem mem_of_memStr (x : String) : ∀ l : List String, memStr x l = true → x ∈ l := by
  intro l
  induction l with
  | nil => intro h; exact absurd h (by simp [memStr])
  | cons y t ih =>
    intro h
    by_cases e : x = y
    · exact e ▸ List.mem_cons_self x t
    · exact List.mem_cons.mpr (Or.inr (ih (by simpa [memStr, e] using h)))

theorem memStr_cons_false (x y : String) (t : List String)
    (h : memStr x (y :: t) = false) : ¬x = y ∧ memStr x t = false := by
  by_cases e : x = y
  · simp [memStr, e] at h
  · exact ⟨e, by simpa [memStr, e] using h⟩

theorem tok_listed : ∀ a, memStr a activities_list = true → (firstTok a).isSome = true := by
  intro a h
  have ha : a ∈ activities_list := mem_of_memStr a _ h
  simp only [activities_list, List.mem_cons, List.not_mem_nil, or_false] at ha
  rcases ha with rfl | rfl | rfl | rfl | rfl | rfl | rfl | rfl | rfl | rfl | rfl | rfl <;> decide

theorem map_group_isEmpty (q : String) : (map_group q).isEmpty = false := by
  simp only [map_group]
  split
  · rfl
  · split
    · rfl
    · split
      · rfl
      · rfl

theorem any_filterB {α : Type} (p q : α → Bool) :
    ∀ l : List α, (l.filter p).any q = l.any (fun a => p a && q a) := by
  intro l
  induction l with
  | nil => rfl
  | cons a t ih =>
    by_cases hp : p a = true
    · simp [List.filter_cons, hp, ih]
    · simp [List.filter_cons, Bool.eq_false_iff.mpr hp, ih]

theorem disabilityMask_eq_specA (cols : List String) (d : String) (r : Row) :
    disabilityMask cols d r = specDisabilityPassA cols d r := by
  unfold disabilityMask specDisabilityPassA
  rw [any_filterB]

theorem actPass_codesOf_eq_spec (acts : List String) (r : Row) :
    actPass (codesOf acts) r = specActPass acts r := by
  induction acts with
  | nil => rfl
  | cons a t ih =>
    cases hc : activityCode a with
    | none =>
      simp only [actPass, codesOf, specActPass, List.filterMap_cons, List.any_cons] at ih ⊢
      rw [show (firstTok a).map pyUpper = none from hc, hc]
      simpa [actPass, codesOf, specActPass] using ih
    | some c =>
      simp only [actPass, codesOf, specActPass, List.filterMap_cons, List.any_cons] at ih ⊢
      rw [show (firstTok a).map pyUpper = some c from hc, hc]
      simp only [List.any_cons]
      rw [ih]

theorem stripNorm_append (l1 l2 : Row) :
    stripNorm (l1 ++ l2) = stripNorm l1 ++ stripNorm l2 := by
  induction l1 with
  | nil => rfl
  | cons kv t ih =>
    by_cases e : kv.1 = "functional_norm"
    · simp [stripNorm, e, ih]
    · simp [stripNorm, e, ih]

theorem stripNorm_map_set (r : Row) (v : String) :
    stripNorm (r.map (fun kv =>
      if kv.1 = "functional_norm" then (kv.1, some v) else kv)) = stripNorm r := by
  induction r with
  | nil => rfl
  | cons kv t ih =>
    by_cases e : kv.1 = "functional_norm"
    · simp [stripNorm, e, ih]
    · simp [stripNorm, e, ih]

theorem stripNorm_setCol (r : Row) (v : String) :
    stripNorm (setCol r "functional_norm" v) = stripNorm r := by
  unfold setCol
  by_cases h : hasCol r "functional_norm" = true
  · rw [if_pos h, stripNorm_map_set]
  · rw [if_neg h, stripNorm_append]
    simp [stripNorm]

theorem stripNorm_augRow (r : Row) : stripNorm (augRow r) = stripNorm r :=
  stripNorm_setCol r _

theorem passAll_mono (cols : List String) (p q : Profile) (hpq : OneMore p q)
    (r : Row) (h : passAll cols q r = true) : passAll cols p r = true := by
  unfold passAll at h ⊢
  rw [Bool.and_eq_true, Bool.and_eq_true, Bool.and_eq_true, Bool.and_eq_true] at h ⊢
  obtain ⟨⟨⟨⟨h1, h2⟩, h3⟩, h4⟩, h5⟩ := h
  cases hpq with
  | dis d s q0 dep acts => exact ⟨⟨⟨⟨rfl, h2⟩, h3⟩, h4⟩, h5⟩
  | sub s d q0 dep acts => exact ⟨⟨⟨⟨h1, rfl⟩, h3⟩, h4⟩, h5⟩
  | qual q0 d s dep acts => exact ⟨⟨⟨⟨h1, h2⟩, rfl⟩, h4⟩, h5⟩
  | dep dep0 d s q0 acts => exact ⟨⟨⟨⟨h1, h2⟩, h3⟩, rfl⟩, h5⟩
  | act acts d s q0 dep => exact ⟨⟨⟨⟨h1, h2⟩, h3⟩, h4⟩, rfl⟩

theorem OneMore_acts (p q : Profile) (hpq : OneMore p q) :
    p.activities = q.activities ∨ p.activities = [] := by
  cases hpq with
  | act acts d s q0 dep => exact Or.inr rfl
  | dis d s q0 dep acts => exact Or.inl rfl
  | sub s d q0 dep acts => exact Or.inl rfl
  | qual q0 d s dep acts => exact Or.inl rfl
  | dep dep0 d s q0 acts => exact Or.inl rfl

/-- C5 (confirmed): `map_group` sends Graduate, Post Graduate and
Doctorate to all four groups, 12th Standard to Groups C and D, 10th
Standard to Group D, and every input whose stripped, lowered form is
none of the five recognised names falls through to the default
`["Group D"]` (no error path exists). -/
theorem c5_group_mapping :
    map_group "Graduate" = ["Group A", "Group B", "Group C", "Group D"] ∧
    map_group "Post Graduate" = ["Group A", "Group B", "Group C", "Group D"] ∧
    map_group "Doctorate" = ["Group A", "Group B", "Group C", "Group D"] ∧
    map_group "12th Standard" = ["Group C", "Group D"] ∧
    map_group "10th Standard" = ["Group D"] ∧
    ∀ q : String,
      memStr (pyLower (pyStrip q))
        ["graduate", "post graduate", "doctorate", "12th standard", "10th standard"] = false →
      map_group q = ["Group D"] := by
  refine ⟨by decide, by decide, by decide, by decide, by decide, ?_⟩
  intro q h
  obtain ⟨n1, h⟩ := memStr_cons_false _ _ _ h
  obtain ⟨n2, h⟩ := memStr_cons_false _ _ _ h
  obtain ⟨n3, h⟩ := memStr_cons_false _ _ _ h
  obtain ⟨n4, h⟩ := memStr_cons_false _ _ _ h
  obtain ⟨n5, h⟩ := memStr_cons_false _ _ _ h
  simp [map_group, memStr, n1, n2, n3, n4, n5]

/-- Witness for C5: `"Diploma"` is unrecognised and maps to the
default `["Group D"]`. -/
theorem c5_group_mapping_witness :
    memStr (pyLower (pyStrip "Diploma"))
      ["graduate", "post graduate", "doctorate", "12th standard", "10th standard"] = false ∧
    map_group "Diploma" = ["Group D"] :=
  ⟨by decide, c5_group_mapping.2.2.2.2.2 "Diploma" (by decide)⟩

/-- C8 (confirmed): on an empty record set `filter_jobs` returns an
empty match set without raising (for every profile whose activity
labels come from the application's fixed activity list), and a
profile with every field unset applies no criterion at all, returning
the input rows unchanged. -/
theorem c8_empty_and_unset :
    (∀ (cols : List String) (p : Profile),
      (∀ a ∈ p.activities, memStr a activities_list = true) →
      ∃ g, filter_jobs ⟨cols, []⟩ p = some g ∧ g.rows = []) ∧
    (∀ f : Frame, filter_jobs f emptyProfile = some ⟨f.cols, f.rows⟩) := by
  constructor
  · intro cols p hval
    obtain ⟨g, hg, hiff⟩ := filter_jobs_total ⟨cols, []⟩ p
      (fun a ha => tok_listed a (hval a ha))
    exact ⟨g, hg, hiff.mpr rfl⟩
  · intro f
    rfl

/-- Witness for C8 at a fully-set profile over an empty record set,
and at the all-unset profile over a one-record set. -/
theorem c8_empty_and_unset_witness :
    (∃ g, filter_jobs ⟨["department"], []⟩
        ⟨some "Visual Impairment", none, some "Graduate", some "Education", ["S Sitting"]⟩ =
        some g ∧ g.rows = []) ∧
    filter_jobs ⟨["designation"], [[("designation", some "Clerk")]]⟩ emptyProfile =
      some ⟨["designation"], [[("designation", some "Clerk")]]⟩ :=
  ⟨c8_empty_and_unset.1 ["department"]
      ⟨some "Visual Impairment", none, some "Graduate", some "Education", ["S Sitting"]⟩
      (by decide),
   c8_empty_and_unset.2 ⟨["designation"], [[("designation", some "Clerk")]]⟩⟩

/-- C10 (confirmed): because every criterion stage is guarded by
`if mask.any()` and skipped when no current row passes it, the result
of `filter_jobs` is empty exactly when the input record set is empty;
in particular a non-empty input always yields a non-empty result
(profiles draw their activity labels from the fixed activity list,
so the activities stage cannot raise). -/
theorem c10_result_empty_iff_input_empty (f : Frame) (p : Profile)
    (hval : ∀ a ∈ p.activities, memStr a activities_list = true) :
    ∃ g, filter_jobs f p = some g ∧ (g.rows = [] ↔ f.rows = []) :=
  filter_jobs_total f p (fun a ha => tok_listed a (hval a ha))

/-- Witness for C10: a fully-set profile that matches nothing still
returns a non-empty result on a non-empty record set. -/
theorem c10_result_empty_iff_input_empty_witness :
    ∃ g, filter_jobs
        ⟨["department", "group"],
         [[("department", some "Police"), ("group", some "Group D")]]⟩
        ⟨some "Visual Impairment", none, some "Graduate", some "Education", ["W Walking"]⟩ =
        some g ∧
      (g.rows = [] ↔
        ([[("department", some "Police"), ("group", some "Group D")]] : List Row) = []) :=
  c10_result_empty_iff_input_empty
    ⟨["department", "group"],
     [[("department", some "Police"), ("group", some "Group D")]]⟩
    ⟨some "Visual Impairment", none, some "Graduate", some "Education", ["W Walking"]⟩
    (by decide)

/-- C1 (corrected) counterexample: with the disability criterion
enabled and failed by every record, the strict-AND intersection is
empty, yet `filter_jobs` skips the degenerate criterion and returns
the record set unchanged (non-empty). -/
theorem c1_counterexample :
    filter_jobs
        ⟨["designation", "category_of_disabilities"],
         [[("designation", some "Clerk"),
           ("category_of_disabilities", some "Hearing Impairment")]]⟩
        ⟨some "Visual Impairment", none, none, none, []⟩ =
      some ⟨["designation", "category_of_disabilities"],
        [[("designation", some "Clerk"),
          ("category_of_disabilities", some "Hearing Impairment")]]⟩ ∧
    List.filter
        (passAll ["designation", "category_of_disabilities"]
          ⟨some "Visual Impairment", none, none, none, []⟩)
        [[("designation", some "Clerk"),
          ("category_of_disabilities", some "Hearing Impairment")]] = [] :=
  ⟨by decide, by decide⟩

/-- C1 (corrected, amended): whenever some record satisfies every
enabled criterion (and the activity labels are well-formed), the
result of `filter_jobs` is exactly the set of records satisfying all
enabled criteria — the strict-AND intersection — each record extended
by the `functional_norm` column when the activities stage ran. -/
theorem c1_amended (f : Frame) (p : Profile)
    (hTok : ∀ a ∈ p.activities, (firstTok a).isSome = true)
    (w : Row) (hw : w ∈ f.rows) (hpass : passAll f.cols p w = true) :
    filter_jobs f p =
      some ⟨(if en5 f.cols p then colsWithNorm f.cols else f.cols),
        ((f.rows.filter (passAll f.cols p)).map
          (fun r => if en5 f.cols p then augRow r else r))⟩ :=
  filter_jobs_run f p hTok w hw hpass

/-- Witness for the amended C1 at a concrete one-record frame and a
department-only profile. -/
theorem c1_amended_witness :
    filter_jobs ⟨["department"], [[("department", some "Education Office")]]⟩
        ⟨none, none, none, some "education", []⟩ =
      some ⟨["department"], [[("department", some "Education Office")]]⟩ := by
  rw [c1_amended ⟨["department"], [[("department", some "Education Office")]]⟩
      ⟨none, none, none, some "education", []⟩
      (fun a ha => absurd ha (List.not_mem_nil a))
      [("department", some "Education Office")] (by decide) (by decide)]
  decide

/-- C2 (corrected) counterexample: enabling the disability criterion
on top of a department-only profile yields a record (the Police row)
that the department-only profile's result does not contain, because
the department criterion is skipped once the current set no longer
satisfies it — so the extended result is not a subset of the base
result. -/
theorem c2_counterexample :
    OneMore ⟨none, none, none, some "Education", []⟩
      ⟨some "Visual Impairment", none, none, some "Education", []⟩ ∧
    filter_jobs
        ⟨["category_of_disabilities", "department"],
         [[("category_of_disabilities", some "Hearing Impairment"),
           ("department", some "Education")],
          [("category_of_disabilities", some "Visual Impairment"),
           ("department", some "Police")]]⟩
        ⟨some "Visual Impairment", none, none, some "Education", []⟩ =
      some ⟨["category_of_disabilities", "department"],
        [[("category_of_disabilities", some "Visual Impairment"),
          ("department", some "Police")]]⟩ ∧
    filter_jobs
        ⟨["category_of_disabilities", "department"],
         [[("category_of_disabilities", some "Hearing Impairment"),
           ("department", some "Education")],
          [("category_of_disabilities", some "Visual Impairment"),
           ("department", some "Police")]]⟩
        ⟨none, none, none, some "Education", []⟩ =
      some ⟨["category_of_disabilities", "department"],
        [[("category_of_disabilities", some "Hearing Impairment"),
          ("department", some "Education")]]⟩ ∧
    ¬ ([("category_of_disabilities", some "Visual Impairment"),
        ("department", some "Police")] : Row) ∈
      [[("category_of_disabilities", some "Hearing Impairment"),
        ("department", some "Education")]] :=
  ⟨OneMore.dis "Visual Impairment" none none (some "Education") [],
   by decide, by decide, by decide⟩

/-- C2 (corrected, amended): enabling one additional criterion never
enlarges the matched set, provided some record satisfies every
criterion enabled in the extended profile (so no stage is skipped);
rows are compared up to the `functional_norm` helper column. -/
theorem c2_amended (f : Frame) (p q : Profile) (hpq : OneMore p q)
    (hTokq : ∀ a ∈ q.activities, (firstTok a).isSome = true)
    (w : Row) (hw : w ∈ f.rows) (hpass : passAll f.cols q w = true)
    (g1 g0 : Frame) (hg1 : filter_jobs f q = some g1) (hg0 : filter_jobs f p = some g0) :
    ∀ r ∈ g1.rows.map stripNorm, r ∈ g0.rows.map stripNorm := by
  have hTokp : ∀ a ∈ p.activities, (firstTok a).isSome = true := by
    rcases OneMore_acts p q hpq with he | he
    · rw [he]; exact hTokq
    · rw [he]; intro a ha; cases ha
  have hpassp : passAll f.cols p w = true := passAll_mono f.cols p q hpq w hpass
  rw [filter_jobs_run f q hTokq w hw hpass] at hg1
  rw [filter_jobs_run f p hTokp w hw hpassp] at hg0
  have hg1' := Option.some.inj hg1
  have hg0' := Option.some.inj hg0
  subst hg1' hg0'
  intro r hr
  dsimp only at hr ⊢
  rw [List.map_map] at hr ⊢
  obtain ⟨r0, hr0, hreq⟩ := List.mem_map.mp hr
  have hmem := List.mem_filter.mp hr0
  refine List.mem_map.mpr ⟨r0,
    List.mem_filter.mpr ⟨hmem.1, passAll_mono f.cols p q hpq r0 hmem.2⟩, ?_⟩
  rw [← hreq]
  by_cases e5p : en5 f.cols p = true <;> by_cases e5q : en5 f.cols q = true <;>
    simp [Function.comp, e5p, e5q, stripNorm_augRow]

/-- Witness for the amended C2: extending the all-unset profile by a
department criterion at a one-record frame whose record matches. -/
theorem c2_amended_witness :
    ([("department", some "Education Office")] : Row) ∈
      (Frame.mk ["department"] [[("department", some "Education Office")]]).rows.map
        stripNorm :=
  c2_amended ⟨["department"], [[("department", some "Education Office")]]⟩
    ⟨none, none, none, none, []⟩ ⟨none, none, none, some "education", []⟩
    (OneMore.dep "education" none none none [])
    (fun a ha => absurd ha (List.not_mem_nil a))
    [("department", some "Education Office")] (by decide) (by decide)
    ⟨["department"], [[("department", some "Education Office")]]⟩
    ⟨["department"], [[("department", some "Education Office")]]⟩
    (by decide) (by decide)
    [("department", some "Education Office")] (by decide)

/-- C9 (corrected) counterexample: with an activity selected, the
returned frame's record carries an extra `functional_norm` field the
input record does not have, so the matched records are not handed
over field-for-field unchanged. -/
theorem c9_counterexample :
    filter_jobs
        ⟨["functional_requirements"], [[("functional_requirements", some "S Sitting")]]⟩
        ⟨none, none, none, none, ["S Sitting"]⟩ =
      some ⟨["functional_requirements", "functional_norm"],
        [[("functional_requirements", some "S Sitting"),
          ("functional_norm", some "S SITTING")]]⟩ ∧
    ([[("functional_requirements", some "S Sitting"),
       ("functional_norm", some "S SITTING")]] : List Row) ≠
      [[("functional_requirements", some "S Sitting")]] :=
  ⟨by decide, by decide⟩

/-- C9 (corrected, amended): every record of the matcher's output is
an input record, either unchanged or extended/overwritten only at
the `functional_norm` column by the activities stage; the input
frame itself is never altered (the embedding is a pure function of
it). -/
theorem c9_amended (f : Frame) (p : Profile) (g : Frame)
    (h : filter_jobs f p = some g) :
    ∀ r ∈ g.rows, ∃ r0, r0 ∈ f.rows ∧ (r = r0 ∨ r = augRow r0) := by
  intro r hr
  simp only [filter_jobs] at h
  by_cases hen5 : en5 f.cols p = true
  · rw [if_pos hen5] at h
    cases hsel : selectedNorm p.activities with
    | none => rw [hsel] at h; simp at h
    | some codes =>
      rw [hsel] at h
      have hg := Option.some.inj h
      subst hg
      have hr' : r ∈ (stage (en4 f.cols p) (stage (en3 f.cols p) (stage (en2 p)
          (stage (en1 p) f.rows (disabilityMask f.cols (optS p.disability)))
          (subcatMask f.cols (optS p.subcategory))) (groupMask (allowedOf p)))
          (deptMask (optS p.department))).map augRow :=
        applyGuard_sub _ _ r hr
      obtain ⟨r0, hr0, hreq⟩ := List.mem_map.mp hr'
      exact ⟨r0, stage_sub _ _ _ r0 (stage_sub _ _ _ r0 (stage_sub _ _ _ r0
        (stage_sub _ _ _ r0 hr0))), Or.inr hreq.symm⟩
  · rw [if_neg hen5] at h
    have hg := Option.some.inj h
    subst hg
    exact ⟨r, stage_sub _ _ _ r (stage_sub _ _ _ r (stage_sub _ _ _ r
      (stage_sub _ _ _ r hr))), Or.inl rfl⟩

/-- Witness for the amended C9 at a concrete activities-only query:
the output record is the input record extended by `functional_norm`. -/
theorem c9_amended_witness :
    ∃ r0, r0 ∈ (Frame.mk ["functional_requirements"]
        [[("functional_requirements", some "W Walking")]]).rows ∧
      (([("functional_requirements", some "W Walking"),
         ("functional_norm", some "W WALKING")] : Row) = r0 ∨
       ([("functional_requirements", some "W Walking"),
         ("functional_norm", some "W WALKING")] : Row) = augRow r0) :=
  c9_amended ⟨["functional_requirements"], [[("functional_requirements", some "W Walking")]]⟩
    ⟨none, none, none, none, ["W Walking"]⟩
    ⟨["functional_requirements", "functional_norm"],
     [[("functional_requirements", some "W Walking"),
       ("functional_norm", some "W WALKING")]]⟩
    (by decide)
    [("functional_requirements", some "W Walking"), ("functional_norm", some "W WALKING")]
    (by decide)

/-- C3 (corrected) counterexample: the spec-worded predicate judges
the record `group = "C (Level 3)"` by its normalised letter C (a pass
for 12th Standard), but the code's criterion is an exact stripped
label match against `map_group`, which fails. -/
theorem c3_counterexample :
    specGroupPass "12th Standard" [("group", some "C (Level 3)")] = true ∧
    groupMask (map_group "12th Standard") [("group", some "C (Level 3)")] = false ∧
    groupMask (allowedOf (qualOnly "12th Standard")) [("group", some "C (Level 3)")] = false :=
  ⟨by decide, by decide, by decide⟩

/-- C3 (corrected, amended): for a qualification-only profile the
matcher keeps exactly the records whose `astype`-rendered, stripped
group label is literally one of the `map_group` labels — no letter
normalisation is performed — provided some record passes. -/
theorem c3_amended (f : Frame) (q : String) (hq : ¬ q = "")
    (hcol : memStr "group" f.cols = true)
    (w : Row) (hw : w ∈ f.rows) (hpw : groupPassCode q w = true) :
    filter_jobs f (qualOnly q) = some ⟨f.cols, f.rows.filter (groupPassCode q)⟩ := by
  have hall : allowedOf (qualOnly q) = map_group q := by
    simp [allowedOf, qualOnly, truthyS, optS, hq]
  have key : ∀ r, passAll f.cols (qualOnly q) r = groupPassCode q r := by
    intro r
    simp [passAll, en1, en2, en3, en4, en5, qualOnly, truthyS, optS, allowedOf,
      hq, map_group_isEmpty, hcol, groupMask, groupPassCode]
  rw [filter_jobs_run f (qualOnly q) (fun a ha => absurd ha (List.not_mem_nil a))
      w hw (by rw [key w]; exact hpw)]
  rw [filter_ext _ _ key f.rows]
  have hen5 : en5 f.cols (qualOnly q) = false := rfl
  simp [hen5]

/-- Witness for the amended C3: 12th Standard keeps the `Group C`
record and drops the `Group A` record. -/
theorem c3_amended_witness :
    filter_jobs ⟨["group"], [[("group", some "Group C")], [("group", some "Group A")]]⟩
        (qualOnly "12th Standard") =
      some ⟨["group"], [[("group", some "Group C")]]⟩ := by
  rw [c3_amended ⟨["group"], [[("group", some "Group C")], [("group", some "Group A")]]⟩
      "12th Standard" (by decide) (by decide)
      [("group", some "Group C")] (by decide) (by decide)]
  decide

/-- C4 (corrected) counterexample: a column named `disability`
contains the candidate's name, and its name contains `"disabilit"`,
so the claim's predicate passes the record; the code only scans
columns whose name contains `"disabilities"`, so its mask fails. -/
theorem c4_counterexample :
    specDisabilityPass ["disability"] "Blindness"
      [("disability", some "Low Vision, Blindness")] = true ∧
    disabilityMask ["disability"] "Blindness"
      [("disability", some "Low Vision, Blindness")] = false :=
  ⟨by decide, by decide⟩

/-- C4 (corrected, amended): for a disability-only profile the
matcher keeps exactly the records for which some column whose
lower-cased name contains `"disabilities"` holds the stripped
candidate disability name as a case-insensitive substring, provided
some record passes. -/
theorem c4_amended (f : Frame) (d : String) (hd : ¬ d = "")
    (w : Row) (hw : w ∈ f.rows) (hpw : specDisabilityPassA f.cols d w = true) :
    filter_jobs f (disOnly d) =
      some ⟨f.cols, f.rows.filter (specDisabilityPassA f.cols d)⟩ := by
  have key : ∀ r, passAll f.cols (disOnly d) r = specDisabilityPassA f.cols d r := by
    intro r
    simp [passAll, en1, en2, en3, en4, en5, disOnly, truthyS, optS, allowedOf,
      hd, disabilityMask_eq_specA]
  rw [filter_jobs_run f (disOnly d) (fun a ha => absurd ha (List.not_mem_nil a))
      w hw (by rw [key w]; exact hpw)]
  rw [filter_ext _ _ key f.rows]
  have hen5 : en5 f.cols (disOnly d) = false := rfl
  simp [hen5]

/-- Witness for the amended C4, with the disability evidence spread
over two `category_of_disabilities` columns (OR across columns). -/
theorem c4_amended_witness :
    filter_jobs
        ⟨["category_of_disabilities_1", "category_of_disabilities_2"],
         [[("category_of_disabilities_1", some "Blindness, Low Vision"),
           ("category_of_disabilities_2", none)],
          [("category_of_disabilities_1", some "Hearing Impairment"),
           ("category_of_disabilities_2", some "Deaf")]]⟩
        (disOnly "Low Vision") =
      some ⟨["category_of_disabilities_1", "category_of_disabilities_2"],
        [[("category_of_disabilities_1", some "Blindness, Low Vision"),
          ("category_of_disabilities_2", none)]]⟩ := by
  rw [c4_amended
      ⟨["category_of_disabilities_1", "category_of_disabilities_2"],
       [[("category_of_disabilities_1", some "Blindness, Low Vision"),
         ("category_of_disabilities_2", none)],
        [("category_of_disabilities_1", some "Hearing Impairment"),
         ("category_of_disabilities_2", some "Deaf")]]⟩
      "Low Vision" (by decide)
      [("category_of_disabilities_1", some "Blindness, Low Vision"),
       ("category_of_disabilities_2", none)] (by decide) (by decide)]
  decide

/-- C6 (confirmed): for an activities-only profile the matcher keeps
exactly the records whose normalised functional-requirements text
contains at least one selected activity code (first whitespace token
of the label, upper-cased) — OR semantics across the selection — each
kept record extended by the `functional_norm` column; hypotheses: the
selection is non-empty with well-formed labels, the column exists,
and some record passes. -/
theorem c6_activities_or (f : Frame) (acts : List String)
    (hne : ¬ acts = [])
    (hTok : ∀ a ∈ acts, (firstTok a).isSome = true)
    (hcol : memStr "functional_requirements" f.cols = true)
    (w : Row) (hw : w ∈ f.rows) (hpw : specActPass acts w = true) :
    filter_jobs f (actsOnly acts) =
      some ⟨colsWithNorm f.cols, (f.rows.filter (specActPass acts)).map augRow⟩ := by
  have hae : acts.isEmpty = false := by
    cases acts with
    | nil => exact absurd rfl hne
    | cons a t => rfl
  have hen5 : en5 f.cols (actsOnly acts) = true := by
    simp [en5, actsOnly, hae, hcol]
  have key : ∀ r, passAll f.cols (actsOnly acts) r = specActPass acts r := by
    intro r
    simp [passAll, en1, en2, en3, en4, en5, actsOnly, truthyS, optS, allowedOf,
      hae, hcol, actPass_codesOf_eq_spec]
  rw [filter_jobs_run f (actsOnly acts) hTok w hw (by rw [key w]; exact hpw)]
  rw [filter_ext _ _ key f.rows]
  simp [hen5]

/-- Witness for C6, the claim's own example: selecting both the RW
and BN activities matches a record that only carries RW. -/
theorem c6_activities_or_witness :
    filter_jobs
        ⟨["functional_requirements"],
         [[("functional_requirements", some "RW Reading & Writing, C Communication")],
          [("functional_requirements", some "L Lifting")]]⟩
        (actsOnly ["RW Reading & Writing", "BN Bending"]) =
      some ⟨["functional_requirements", "functional_norm"],
        [[("functional_requirements", some "RW Reading & Writing, C Communication"),
          ("functional_norm", some "RW READING  WRITING C COMMUNICATION")]]⟩ := by
  rw [c6_activities_or
      ⟨["functional_requirements"],
       [[("functional_requirements", some "RW Reading & Writing, C Communication")],
        [("functional_requirements", some "L Lifting")]]⟩
      ["RW Reading & Writing", "BN Bending"] (by decide) (by decide) (by decide)
      [("functional_requirements", some "RW Reading & Writing, C Communication")]
      (by decide) (by decide)]
  decide

/-- C7 (corrected) counterexample: for the whitespace-padded
candidate department `" education"` the claim's predicate (substring
test on the raw candidate string) fails on `"Education Office"`, yet
the code strips the candidate first, so its mask passes. -/
theorem c7_counterexample :
    deptMask " education" [("department", some "Education Office")] = true ∧
    specDeptPass " education" [("department", some "Education Office")] = false :=
  ⟨by decide, by decide⟩

/-- C7 (corrected, amended): for a department-only profile the
matcher keeps exactly the records whose department field contains
the stripped candidate department string as a case-insensitive
substring (partial match, not equality), provided some record
passes. -/
theorem c7_amended (f : Frame) (dep : String) (hdep : ¬ dep = "")
    (hcol : memStr "department" f.cols = true)
    (w : Row) (hw : w ∈ f.rows) (hpw : specDeptPassA dep w = true) :
    filter_jobs f (depOnly dep) = some ⟨f.cols, f.rows.filter (specDeptPassA dep)⟩ := by
  have key : ∀ r, passAll f.cols (depOnly dep) r = specDeptPassA dep r := by
    intro r
    simp [passAll, en1, en2, en3, en4, en5, depOnly, truthyS, optS, allowedOf,
      hdep, hcol, deptMask, specDeptPassA]
  rw [filter_jobs_run f (depOnly dep) (fun a ha => absurd ha (List.not_mem_nil a))
      w hw (by rw [key w]; exact hpw)]
  rw [filter_ext _ _ key f.rows]
  have hen5 : en5 f.cols (depOnly dep) = false := rfl
  simp [hen5]

/-- Witness for the amended C7, the spec's P5 example: candidate
department `"education"` matches `"Higher Education Department"` and
not `"Police"`. -/
theorem c7_amended_witness :
    filter_jobs
        ⟨["department"],
         [[("department", some "Higher Education Department")],
          [("department", some "Police")]]⟩
        (depOnly "education") =
      some ⟨["department"], [[("department", some "Higher Education Department")]]⟩ := by
  rw [c7_amended
      ⟨["department"],
       [[("department", some "Higher Education Department")],
        [("department", some "Police")]]⟩
      "education" (by decide) (by decide)
      [("department", some "Higher Education Department")] (by decide) (by decide)]
  decide
